import Mathlib

/-!
Verification development for the configify generator (type-checked strategy).

The generator inspects one named struct type in a Go package and emits a
functional-options source unit.  The embedding below models the collecting and
rendering passes of `Generator.generate`, the string munging on
`types.TypeString` output, the naming helpers `lowerName` / `upperName`, and
the `mapType.inc` template's `Apply` semantics.

Go strings are byte sequences; every type string handled here is ASCII, so the
byte indices used by `strings.LastIndex` and slicing coincide with character
indices and are modelled over `List Char`.
-/

namespace Configify

/-- The `ValueType` enumeration of the source (`baseType`, `pointerType`,
`sliceType`, `mapType`, `interfaceType`). -/
inductive ValueType
  | baseType
  | pointerType
  | sliceType
  | mapType
  | interfaceType
deriving DecidableEq

/-- The shape of a field's underlying type, as discriminated by the
`switch typ := field.Type().Underlying().(type)` in `generate`.  The
`otherShape` constructor carries the Go dynamic type name printed by the
diagnostic's format verb for shapes outside the recognized set. -/
inductive UShape
  | basic
  | array
  | slice
  | mapShape
  | signature
  | pointer
  | ifaceShape
  | structShape
  | chanShape
  | otherShape (goTypeName : String)
deriving DecidableEq

/-- One field of the target struct as seen by `generate`: its name, the text
produced by `types.TypeString(field.Type(), types.RelativeTo(field.Pkg()))`,
its underlying shape, and the `field.Embedded()` flag. -/
structure GoField where
  name : String
  typeString : String
  underlying : UShape
  embedded : Bool
deriving DecidableEq

/-- The source's `Value` record: original field name, rendered type text and
classified category. -/
structure Value where
  originalName : String
  originalType : String
  valueType : ValueType
deriving DecidableEq

/-- Index of the last occurrence of character `c` in `s`, mirroring
`strings.LastIndex` (which returns -1 when absent, modelled as `none`). -/
def lastIndex (c : Char) (s : String) : Option Nat :=
  ((List.range s.toList.length).filter (fun i => s.toList.get? i = some c)).getLast?

/-- Character-list based prefix, mirroring Go slicing `s[0:n]` on ASCII text. -/
def strTake (s : String) (n : Nat) : String :=
  String.mk (s.toList.take n)

/-- Character-list based suffix, mirroring Go slicing `s[n:]` on ASCII text. -/
def strDrop (s : String) (n : Nat) : String :=
  String.mk (s.toList.drop n)

/-- The import-qualifier extraction in `generate`:
`if indx := strings.LastIndex(typeString, "."); indx > 0 { imp = typeString[0:indx] }`. -/
def impOf (typeString : String) : String :=
  match lastIndex '.' typeString with
  | some indx => if 0 < indx then strTake typeString indx else ""
  | none => ""

/-- The slash-stripping step in `generate`:
`if indx := strings.LastIndex(typeString, "/"); indx > 0 { typeString = typeString[indx+1:] }`. -/
def stripSlash (typeString : String) : String :=
  match lastIndex '/' typeString with
  | some indx => if 0 < indx then strDrop typeString (indx + 1) else typeString
  | none => typeString

/-- Outcome of processing one field inside the `for i := 0; i < struc.NumFields()`
loop of `generate`: embedded fields are skipped by `continue`; unrecognized
shapes print a diagnostic and `continue`; recognized shapes yield a `Value`
together with the import path recorded for the header. -/
inductive FieldOutcome
  | skippedEmbedded
  | unsupported (diag : String)
  | ok (v : Value) (imp : String)
deriving DecidableEq

/-- Dynamic type name used by the default branch's diagnostic format verb. -/
def shapeGoName : UShape → String
  | .chanShape => "*types.Chan"
  | .otherShape t => t
  | _ => ""

/-- The body of the field loop of `generate`: embedded check, qualifier
extraction, slash strip, then the shape switch.  The pointer case drops the
leading character from both the import qualifier (when non-empty) and the
already slash-stripped type text, exactly as the source does. -/
def processField (f : GoField) : FieldOutcome :=
  if f.embedded then .skippedEmbedded
  else
    let imp0 := impOf f.typeString
    let typeString1 := stripSlash f.typeString
    match f.underlying with
    | .basic => .ok ⟨f.name, typeString1, .baseType⟩ imp0
    | .array => .ok ⟨f.name, typeString1, .baseType⟩ imp0
    | .signature => .ok ⟨f.name, typeString1, .baseType⟩ imp0
    | .structShape => .ok ⟨f.name, typeString1, .baseType⟩ imp0
    | .slice => .ok ⟨f.name, typeString1, .sliceType⟩ imp0
    | .mapShape => .ok ⟨f.name, typeString1, .mapType⟩ imp0
    | .pointer =>
        let imp1 := if 0 < imp0.toList.length then strDrop imp0 1 else imp0
        .ok ⟨f.name, strDrop typeString1 1, .pointerType⟩ imp1
    | .ifaceShape => .ok ⟨f.name, typeString1, .interfaceType⟩ imp0
    | .chanShape => .unsupported (f.name ++ " - " ++ typeString1 ++ " - " ++ shapeGoName .chanShape)
    | .otherShape t => .unsupported (f.name ++ " - " ++ typeString1 ++ " - " ++ t)

/-- Accumulated state of the collecting pass: the `values` slice, the
`imports` set (modelled as an insertion-ordered duplicate-free list) and the
diagnostics printed so far. -/
structure CollectResult where
  values : List Value
  imports : List String
  diags : List String
deriving DecidableEq

/-- Set-semantics insertion into the `imports` map, guarded by
`if len(imp) > 0`. -/
def insertImport (imps : List String) (imp : String) : List String :=
  if imp = "" then imps
  else if imp ∈ imps then imps else imps ++ [imp]

/-- The collecting loop over the target struct's fields, threading the
accumulator in declaration order. -/
def collectGo (acc : CollectResult) : List GoField → CollectResult
  | [] => acc
  | f :: fs =>
    match processField f with
    | .skippedEmbedded => collectGo acc fs
    | .unsupported d => collectGo ⟨acc.values, acc.imports, acc.diags ++ [d]⟩ fs
    | .ok v imp => collectGo ⟨acc.values ++ [v], insertImport acc.imports imp, acc.diags⟩ fs

/-- Collecting pass started from the empty accumulator. -/
def collectFields (fs : List GoField) : CollectResult :=
  collectGo ⟨[], [], []⟩ fs

/-- Values contributed by a field list (the `.ok` outcomes, in order). -/
def valuesOf (fs : List GoField) : List Value :=
  fs.filterMap (fun f =>
    match processField f with
    | .ok v _ => some v
    | _ => none)

/-- Diagnostics contributed by a field list (the `.unsupported` outcomes, in order). -/
def diagsOf (fs : List GoField) : List String :=
  fs.filterMap (fun f =>
    match processField f with
    | .unsupported d => some d
    | _ => none)

/-- The naming helper `lowerName` of the source: convert the identifier to a
rune slice, lower-case its first rune, convert back.  Go's `unicode.ToLower`
is modelled by Lean's character case map; indexing an empty identifier would
panic in Go and is never reached (struct field names are non-empty), so the
empty case is mapped to the empty string. -/
def lowerName (name : String) : String :=
  match name.toList with
  | [] => ""
  | a0 :: rest => String.mk (a0.toLower :: rest)

/-- The naming helper `upperName` of the source, upper-casing the first rune. -/
def upperName (name : String) : String :=
  match name.toList with
  | [] => ""
  | a0 :: rest => String.mk (a0.toUpper :: rest)

/-- Modelled from the spec: the per-category template files `baseType.inc`,
`pointerType.inc`, `sliceType.inc` and `interfaceType.inc` are embedded
template files absent from the source tree.  Per the spec each renders, for
one field, exactly one private option-carrier type declaration, exactly one
`Apply` method on that carrier, and exactly one exported `With` factory whose
payload parameter type is the field's rendered type; a fragment record stands
for that triple of declarations. -/
structure Fragment where
  optionTypeName : String
  payloadType : String
  withName : String
deriving DecidableEq

/-- Rendering of one value through its category's template, using the
template data map of the source (`origName`, `nameLower`, `nameUpper`,
`origType`). -/
def renderFragment (v : Value) : Fragment :=
  { optionTypeName := lowerName v.originalName ++ "Option"
  , payloadType := v.originalType
  , withName := "With" ++ upperName v.originalName }

/-- The categories registered in the source's `temps` template map:
`baseType`, `pointerType`, `sliceType` and `interfaceType`.  The `mapType`
category has no entry, so the rendering loop's `if !ok { continue }` skips
every map-classified value. -/
def temps : List ValueType :=
  [.baseType, .pointerType, .sliceType, .interfaceType]

/-- The rendering loop of `generate`: each collected value is rendered through
its category's template when one is registered, and silently skipped otherwise. -/
def renderValues (vs : List Value) : List Fragment :=
  vs.filterMap (fun v => if v.valueType ∈ temps then some (renderFragment v) else none)

/-- Per-run output of the collecting and rendering passes: the fragment list,
the import set, and the diagnostics. -/
structure GenOutput where
  fragments : List Fragment
  importSet : List String
  diags : List String
deriving DecidableEq

/-- Full generation over a field list: collect, then render. -/
def generateFragments (fs : List GoField) : GenOutput :=
  let c := collectFields fs
  ⟨renderValues c.values, c.imports, c.diags⟩

/-- A Go map value with string keys and integer values, modelled as an
insertion-ordered association list without duplicate keys (map writes
overwrite in place, new keys append). -/
def goMapSet (m : List (String × Int)) (k : String) (v : Int) : List (String × Int) :=
  if m.any (fun p => p.1 = k) then m.map (fun p => if p.1 = k then (k, v) else p)
  else m ++ [(k, v)]

/-- Go map read `m[k]`, as an optional value. -/
def goMapGet (m : List (String × Int)) (k : String) : Option Int :=
  (m.find? (fun p => p.1 = k)).map (fun p => p.2)

/-- The `Apply` body of the `mapType.inc` template, value-level: when the
target field is nil it is first assigned the converted option map, then every
key/value pair of the option's map is written into the field, overwriting
same-key entries.  (The Go conversion makes the nil-case assignment alias the
option's map, so the subsequent loop rewrites the same entries; value-wise
the result is the option map itself, which this model reproduces.) -/
def mapOptionApply (o : List (String × Int)) (field : Option (List (String × Int))) :
    List (String × Int) :=
  let f0 := match field with
    | none => o
    | some m => m
  o.foldl (fun acc p => goMapSet acc p.1 p.2) f0

/-- Modelled from the spec: the header template file `header.inc` is absent
from the source tree.  Per the spec it renders the package clause and an
an import block holding one line per path of the import list, in the order the
list is handed to it, followed by the constructor, the `Apply` method and the
`Option` declaration for the target type.  Only the order-sensitive part (the
package clause and the import lines) is rendered here. -/
def renderHeader (pkg : String) (cfgType : String) (importList : List String) : String :=
  "package " ++ pkg ++ "\n\nimport (\n"
    ++ String.join (importList.map (fun i => "\t" ++ i ++ "\n"))
    ++ ")\n\n// functional options for " ++ cfgType ++ "\n"

/-- The resolved type of one defining identifier of the loaded package, as
relevant to the assertions `v.Type().(*types.Named).Underlying().(*types.Struct)`
in `generate`: either a named type whose underlying type is a struct (with its
fields), a named type with some other underlying type, or a type that is not a
`*types.Named` at all (a function's `*types.Signature`, a variable's or
constant's `*types.Basic`, ...), tagged with its Go dynamic type name. -/
inductive GoType
  | namedStruct (fields : List GoField)
  | namedOther (underlyingName : String)
  | notNamed (goTypeName : String)
deriving DecidableEq

/-- One entry of `g.pkg.defs`: a defining identifier and its object's type. -/
structure GoDef where
  name : String
  ty : GoType
deriving DecidableEq

/-- Result of a whole generation run: either a Go runtime panic raised by a
failed type assertion, or the produced output. -/
inductive GenResult
  | panicked
  | ok (output : GenOutput)
deriving DecidableEq

/-- The defs loop of `generate`: every defining identifier whose name equals
the requested type name is cast with
`v.Type().(*types.Named).Underlying().(*types.Struct)`; a definition of any
other kind makes the unchecked assertion panic.  Returns the concatenated
field lists of the matching struct definitions, or `none` when the run
panics. -/
def scanDefs (typeName : String) : List GoDef → Option (List GoField)
  | [] => some []
  | d :: rest =>
    if d.name = typeName then
      match d.ty with
      | .namedStruct fs => (scanDefs typeName rest).map (fun acc => fs ++ acc)
      | _ => none
    else scanDefs typeName rest

/-- A generation run over the package's definitions: scan the defs map for
the target name (panicking on a non-struct definition of that name), then
collect and render the fields found. -/
def generateRun (defs : List GoDef) (typeName : String) : GenResult :=
  match scanDefs typeName defs with
  | none => .panicked
  | some fs => .ok (generateFragments fs)

/-- The extended example package's `config` struct, field by field, with the
type text `types.TypeString` produces for each field relative to the example
package. -/
def exampleFields : List GoField :=
  [ ⟨"myType", "MyType", .basic, false⟩
  , ⟨"color", "string", .basic, false⟩
  , ⟨"Height", "int", .basic, false⟩
  , ⟨"array", "[3]int", .array, false⟩
  , ⟨"slice", "[]int", .slice, false⟩
  , ⟨"maps", "map[string]string", .mapShape, false⟩
  , ⟨"funcs", "func(int) error", .signature, false⟩
  , ⟨"point", "*string", .pointer, false⟩
  , ⟨"inter", "io.Reader", .ifaceShape, false⟩
  , ⟨"MyType", "MyType", .basic, true⟩
  , ⟨"buf", "bytes.Buffer", .structShape, false⟩
  , ⟨"buf2", "*sync.WaitGroup", .pointer, false⟩
  , ⟨"frame", "github.com/pkg/errors.Frame", .basic, false⟩ ]

/-- The classifier's category assignment for one field, extracted from the
field-loop outcome. -/
def classifyCategory (f : GoField) : Option ValueType :=
  match processField f with
  | .ok v _ => some v.valueType
  | _ => none

theorem processField_of_embedded (f : GoField) (h : f.embedded = true) :
    processField f = .skippedEmbedded := by
  simp [processField, h]

theorem collectGo_embedded_skip (emb : GoField) (h : emb.embedded = true) :
    ∀ (fs1 fs2 : List GoField) (acc : CollectResult),
      collectGo acc (fs1 ++ emb :: fs2) = collectGo acc (fs1 ++ fs2) := by
  intro fs1
  induction fs1 with
  | nil =>
    intro fs2 acc
    show collectGo acc (emb :: fs2) = collectGo acc fs2
    simp [collectGo, processField_of_embedded emb h]
  | cons g gs ih =>
    intro fs2 acc
    show collectGo acc (g :: (gs ++ emb :: fs2)) = collectGo acc (g :: (gs ++ fs2))
    cases hg : processField g <;> simp only [collectGo, hg] <;> exact ih _ _

theorem valuesOf_cons_ok (f : GoField) (fs : List GoField) (v : Value) (imp : String)
    (h : processField f = .ok v imp) : valuesOf (f :: fs) = v :: valuesOf fs := by
  simp [valuesOf, h]

theorem diagsOf_cons_unsupported (f : GoField) (fs : List GoField) (d : String)
    (h : processField f = .unsupported d) : diagsOf (f :: fs) = d :: diagsOf fs := by
  simp [diagsOf, h]

theorem collectGo_values_diags : ∀ (fs : List GoField) (acc : CollectResult),
    (collectGo acc fs).values = acc.values ++ valuesOf fs
  ∧ (collectGo acc fs).diags = acc.diags ++ diagsOf fs := by
  intro fs
  induction fs with
  | nil => intro acc; simp [collectGo, valuesOf, diagsOf]
  | cons f fs ih =>
    intro acc
    cases hf : processField f with
    | skippedEmbedded =>
      simp only [collectGo, hf, valuesOf, diagsOf, List.filterMap_cons]
      exact ih acc
    | unsupported d =>
      have h2 := ih ⟨acc.values, acc.imports, acc.diags ++ [d]⟩
      simp only [collectGo, hf, valuesOf, diagsOf, List.filterMap_cons] at *
      exact ⟨h2.1, by rw [h2.2]; simp⟩
    | ok v imp =>
      have h2 := ih ⟨acc.values ++ [v], insertImport acc.imports imp, acc.diags⟩
      simp only [collectGo, hf, valuesOf, diagsOf, List.filterMap_cons] at *
      exact ⟨by rw [h2.1]; simp, h2.2⟩

theorem valuesOf_append (fs1 fs2 : List GoField) :
    valuesOf (fs1 ++ fs2) = valuesOf fs1 ++ valuesOf fs2 := by
  simp [valuesOf, List.filterMap_append]

theorem diagsOf_append (fs1 fs2 : List GoField) :
    diagsOf (fs1 ++ fs2) = diagsOf fs1 ++ diagsOf fs2 := by
  simp [diagsOf, List.filterMap_append]

theorem scanDefs_none_of_bad :
    ∀ (defs : List GoDef) (typeName : String) (d : GoDef), d ∈ defs →
      d.name = typeName → (∀ fs : List GoField, d.ty ≠ GoType.namedStruct fs) →
      scanDefs typeName defs = none := by
  intro defs
  induction defs with
  | nil => intro t d h; cases h
  | cons e rest ih =>
    intro t d hmem hname hbad
    rcases List.mem_cons.mp hmem with rfl | hmem2
    · simp only [scanDefs, hname, if_pos]
    · by_cases he : e.name = t
      · simp only [scanDefs, he, if_pos]
        cases e.ty with
        | namedStruct fs => rw [ih t d hmem2 hname hbad]; rfl
        | namedOther u => rfl
        | notNamed g => rfl
      · simp only [scanDefs, he, if_neg, if_false]
        exact ih t d hmem2 hname hbad

/-- Claim C1: the claim states that every field classified scalar, pointer,
slice, map or interface yields exactly one option-carrier type, one Apply
method and one With factory in the generated unit.  This fails for map
fields: the source's template map registers no template for the `mapType`
category, so the rendering loop skips every map-classified value.  On the
example struct, the `maps` field is collected with category `mapType`, other
categories render fragments, and no fragment for `maps` appears. -/
theorem c1_map_fragment_missing :
    (⟨"maps", "map[string]string", ValueType.mapType⟩ : Value) ∈ (collectFields exampleFields).values
  ∧ ValueType.mapType ∉ temps
  ∧ (⟨"colorOption", "string", "WithColor"⟩ : Fragment) ∈ (generateFragments exampleFields).fragments
  ∧ ∀ fr ∈ (generateFragments exampleFields).fragments, fr.withName ≠ "WithMaps" := by decide

/-- Claim C2: the map template's Apply step merges the option's key/value
pairs into the existing field rather than replacing it: applying an option
contributing x maps-to 1 and then one contributing y maps-to 2 yields a field
holding both entries; same-key entries are overwritten. -/
theorem c2_map_merge_semantics :
    mapOptionApply [("x", 1)] none = [("x", 1)]
  ∧ mapOptionApply [("y", 2)] (some (mapOptionApply [("x", 1)] none)) = [("x", 1), ("y", 2)]
  ∧ goMapGet (mapOptionApply [("y", 2)] (some (mapOptionApply [("x", 1)] none))) "x" = some 1
  ∧ goMapGet (mapOptionApply [("y", 2)] (some (mapOptionApply [("x", 1)] none))) "y" = some 2
  ∧ mapOptionApply [("y", 2)] (some (mapOptionApply [("x", 1)] none)) ≠ [("y", 2)]
  ∧ mapOptionApply [("x", 9)] (some [("x", 1), ("y", 2)]) = [("x", 9), ("y", 2)] := by decide

/-- Claim C3: the classifier assigns exactly one category per non-embedded
field, determined by the underlying shape: basic, fixed-length array,
function-valued and plain struct shapes are scalar (base), slices slice,
maps map, pointers pointer, interfaces interface. -/
theorem c3_classifier_categories (f : GoField) (h : f.embedded = false) :
    ((f.underlying = .basic ∨ f.underlying = .array ∨ f.underlying = .signature
        ∨ f.underlying = .structShape) → classifyCategory f = some .baseType)
  ∧ (f.underlying = .slice → classifyCategory f = some .sliceType)
  ∧ (f.underlying = .mapShape → classifyCategory f = some .mapType)
  ∧ (f.underlying = .pointer → classifyCategory f = some .pointerType)
  ∧ (f.underlying = .ifaceShape → classifyCategory f = some .interfaceType)
  ∧ (∀ c1 c2 : ValueType, classifyCategory f = some c1 → classifyCategory f = some c2 → c1 = c2) := by
  refine ⟨?_, ?_, ?_, ?_, ?_, ?_⟩
  · rintro (h2 | h2 | h2 | h2) <;> simp [classifyCategory, processField, h, h2]
  · intro h2; simp [classifyCategory, processField, h, h2]
  · intro h2; simp [classifyCategory, processField, h, h2]
  · intro h2; simp [classifyCategory, processField, h, h2]
  · intro h2; simp [classifyCategory, processField, h, h2]
  · intro c1 c2 e1 e2
    exact Option.some.inj (e1.symm.trans e2)

/-- Witness for C3 at the concrete slice field of the example struct. -/
theorem c3_classifier_categories_witness :
    classifyCategory ⟨"slice", "[]int", UShape.slice, false⟩ = some ValueType.sliceType :=
  (c3_classifier_categories ⟨"slice", "[]int", UShape.slice, false⟩ rfl).2.1 rfl

/-- Claim C4: the claim states the rendered text for a pointer field is the
pointee's type text for every pointer field, including one whose pointee
package has a slash-delimited import path.  The code first strips everything
up to the last slash (which already removes the leading pointer marker in the
slash-qualified case) and then unconditionally drops one more character, so a
pointee of type text errors.Frame from package github.com/pkg/errors is
rendered as the garbled rrors.Frame; the slash-free case behaves as claimed. -/
theorem c4_pointer_slash_rendering :
    processField ⟨"buf2", "*sync.WaitGroup", UShape.pointer, false⟩
      = FieldOutcome.ok ⟨"buf2", "sync.WaitGroup", ValueType.pointerType⟩ "sync"
  ∧ processField ⟨"frame", "*github.com/pkg/errors.Frame", UShape.pointer, false⟩
      = FieldOutcome.ok ⟨"frame", "rrors.Frame", ValueType.pointerType⟩ "github.com/pkg/errors"
  ∧ ("rrors.Frame" : String) ≠ "errors.Frame" := by decide

/-- Claim C5: the claim states the output is byte-identical across runs with
the import lines in a deterministic order.  The import list is built by iterating
a Go map, whose iteration order is unspecified: two iteration orders of the
same two-element import set produce different header bytes, so the output is
not a function of the input package alone. -/
theorem c5_import_order_dependence :
    (collectFields [⟨"inter", "io.Reader", UShape.ifaceShape, false⟩,
        ⟨"buf2", "*sync.WaitGroup", UShape.pointer, false⟩]).imports = ["io", "sync"]
  ∧ List.Perm ["io", "sync"] ["sync", "io"]
  ∧ renderHeader "example" "config" ["io", "sync"]
      ≠ renderHeader "example" "config" ["sync", "io"] := by
  refine ⟨by decide, List.Perm.swap "sync" "io" [], by decide⟩

/-- Counterexample for C6: on a field of interface type io.Reader declared in
and referenced via another package, the run emits a fragment for the field,
records the import, and produces no diagnostic — contradicting the claim that
the field is skipped with a diagnostic only. -/
theorem c6_cross_package_interface_not_skipped :
    (generateFragments [⟨"inter", "io.Reader", UShape.ifaceShape, false⟩]).fragments
      = [⟨"interOption", "io.Reader", "WithInter"⟩]
  ∧ (generateFragments [⟨"inter", "io.Reader", UShape.ifaceShape, false⟩]).diags = []
  ∧ (generateFragments [⟨"inter", "io.Reader", UShape.ifaceShape, false⟩]).importSet = ["io"] := by
  decide

/-- Claim C6 as amended: a non-embedded field of interface type — including
one whose interface type is declared in another package — is not skipped and
produces no diagnostic: it is classified interface, its package qualifier is
returned for the import set, and the interface template is registered, so a
fragment is emitted for it. -/
theorem c6_interface_fragment_emitted (f : GoField)
    (h1 : f.embedded = false) (h2 : f.underlying = UShape.ifaceShape) :
    processField f
      = FieldOutcome.ok ⟨f.name, stripSlash f.typeString, ValueType.interfaceType⟩ (impOf f.typeString)
  ∧ ValueType.interfaceType ∈ temps := by
  constructor
  · simp [processField, h1, h2]
  · decide

/-- Witness for the amended C6 at a concrete cross-package interface field. -/
theorem c6_interface_fragment_emitted_witness :
    processField ⟨"inter2", "fmt.Stringer", UShape.ifaceShape, false⟩
      = FieldOutcome.ok ⟨"inter2", stripSlash "fmt.Stringer", ValueType.interfaceType⟩ (impOf "fmt.Stringer")
  ∧ ValueType.interfaceType ∈ temps :=
  c6_interface_fragment_emitted ⟨"inter2", "fmt.Stringer", UShape.ifaceShape, false⟩ rfl rfl

/-- Claim C7: an embedded field contributes no fragment, no import and no
diagnostic, and the run over the remaining fields is unchanged: generation
over a field list containing the embedded field equals generation over the
list with it removed. -/
theorem c7_embedded_silent_skip (fs1 fs2 : List GoField) (emb : GoField)
    (h : emb.embedded = true) :
    generateFragments (fs1 ++ emb :: fs2) = generateFragments (fs1 ++ fs2) := by
  unfold generateFragments collectFields
  rw [collectGo_embedded_skip emb h]

/-- Witness for C7: the embedded MyType field of the example struct is
silently dropped. -/
theorem c7_embedded_silent_skip_witness :
    generateFragments [⟨"MyType", "MyType", UShape.basic, true⟩] = generateFragments [] :=
  c7_embedded_silent_skip [] [] ⟨"MyType", "MyType", UShape.basic, true⟩ rfl

/-- Claim C8: a field of unrecognized underlying shape (here a channel) is
omitted from the generated unit, a diagnostic naming the unrecognized shape
is printed, and every other field's fragment is still produced. -/
theorem c8_unsupported_shape (fs1 fs2 : List GoField) (f : GoField)
    (h1 : f.embedded = false) (h2 : f.underlying = UShape.chanShape) :
    (generateFragments (fs1 ++ f :: fs2)).fragments = (generateFragments (fs1 ++ fs2)).fragments
  ∧ (generateFragments (fs1 ++ f :: fs2)).diags
      = diagsOf fs1 ++ (f.name ++ " - " ++ stripSlash f.typeString ++ " - " ++ "*types.Chan")
          :: diagsOf fs2 := by
  have hf : processField f
      = .unsupported (f.name ++ " - " ++ stripSlash f.typeString ++ " - " ++ "*types.Chan") := by
    simp [processField, h1, h2, shapeGoName]
  have hv1 := collectGo_values_diags (fs1 ++ f :: fs2) ⟨[], [], []⟩
  have hv2 := collectGo_values_diags (fs1 ++ fs2) ⟨[], [], []⟩
  constructor
  · show renderValues (collectFields (fs1 ++ f :: fs2)).values
        = renderValues (collectFields (fs1 ++ fs2)).values
    unfold collectFields
    rw [hv1.1, hv2.1, valuesOf_append, valuesOf_append]
    have : valuesOf (f :: fs2) = valuesOf fs2 := by simp [valuesOf, hf]
    rw [this]
  · show (collectFields (fs1 ++ f :: fs2)).diags = _
    unfold collectFields
    rw [hv1.2, diagsOf_append, diagsOf_cons_unsupported f fs2 _ hf]
    simp

/-- Witness for C8 at a concrete two-field struct with a channel field. -/
theorem c8_unsupported_shape_witness :
    (generateFragments ([⟨"color", "string", UShape.basic, false⟩]
        ++ ⟨"ch", "chan int", UShape.chanShape, false⟩ :: [])).fragments
      = (generateFragments ([⟨"color", "string", UShape.basic, false⟩] ++ [])).fragments
  ∧ (generateFragments ([⟨"color", "string", UShape.basic, false⟩]
        ++ ⟨"ch", "chan int", UShape.chanShape, false⟩ :: [])).diags
      = diagsOf [⟨"color", "string", UShape.basic, false⟩]
          ++ ("ch" ++ " - " ++ stripSlash "chan int" ++ " - " ++ "*types.Chan") :: diagsOf [] :=
  c8_unsupported_shape [⟨"color", "string", UShape.basic, false⟩] []
    ⟨"ch", "chan int", UShape.chanShape, false⟩ rfl rfl

/-- Claim C9: for a non-empty identifier, lowerName changes only the first
character's case to lower and upperName only the first character's case to
upper, leaving the remaining characters untouched. -/
theorem c9_case_only_first (name : String) (h : name ≠ "") :
    ∃ c rest, name.toList = c :: rest
      ∧ lowerName name = String.mk (c.toLower :: rest)
      ∧ upperName name = String.mk (c.toUpper :: rest) := by
  obtain ⟨data⟩ := name
  cases data with
  | nil => exact absurd rfl h
  | cons c rest => exact ⟨c, rest, rfl, rfl, rfl⟩

/-- Witness for C9 at the concrete identifier MyType. -/
theorem c9_case_only_first_witness :
    ("MyType" : String) ≠ ""
  ∧ ∃ c rest, ("MyType" : String).toList = c :: rest
      ∧ lowerName "MyType" = String.mk (c.toLower :: rest)
      ∧ upperName "MyType" = String.mk (c.toUpper :: rest) :=
  ⟨by decide, c9_case_only_first "MyType" (by decide)⟩

/-- Claim C10: if the package defines any identifier whose name equals the
requested type name but whose object is not a named struct type, the
generation run panics on the unchecked type assertions instead of producing a
diagnostic or fatal error. -/
theorem c10_nonstruct_definition_panics (defs : List GoDef) (typeName : String)
    (d : GoDef) (hmem : d ∈ defs) (hname : d.name = typeName)
    (hbad : ∀ fs : List GoField, d.ty ≠ GoType.namedStruct fs) :
    generateRun defs typeName = GenResult.panicked := by
  unfold generateRun
  rw [scanDefs_none_of_bad defs typeName d hmem hname hbad]

/-- Witness for C10: a package defining a function named config, targeted
with type name config, panics. -/
theorem c10_nonstruct_definition_panics_witness :
    generateRun [⟨"config", GoType.notNamed "*types.Signature"⟩] "config" = GenResult.panicked :=
  c10_nonstruct_definition_panics [⟨"config", GoType.notNamed "*types.Signature"⟩] "config"
    ⟨"config", GoType.notNamed "*types.Signature"⟩ (List.mem_singleton.mpr rfl) rfl
    (fun _ hh => GoType.noConfusion hh)

end Configify
